import Mathlib

/-!
Verification of the `filedesc` crate (src/src/lib.rs, src/src/unix.rs).

The crate wraps a raw POSIX file descriptor in a `FileDesc` struct that
closes the descriptor on drop, and provides a duplication protocol that
first tries the atomic `fcntl(fd, F_DUPFD_CLOEXEC, 0)` primitive (guarded
by the process-wide `TRY_DUPFD_CLOEXEC` atomic flag) and falls back to
`fcntl(fd, F_DUPFD, 0)` followed by a non-atomic `F_SETFD` of the
close-on-exec bit.

The embedding passes the process state explicitly:
- `Os` models the kernel as seen through the syscalls the crate consumes
  (spec section 6): the table of open descriptors with their close-on-exec
  flags, whether the kernel supports `F_DUPFD_CLOEXEC`, fault-injection
  knobs so that every fallible syscall can fail with an arbitrary error,
  the `errno` cell read by `last_os_error`, and a trace of performed
  syscalls (most recent first).
- `LibState` carries the value of the `TRY_DUPFD_CLOEXEC` static.
- Rust drop glue is embedded by the `Owned` wrapper: a local owning a
  `FileDesc` whose destructor is still armed; `mem::forget` disarms it.

Errors (`std::io::Error` values produced by `last_os_error`) are modelled
by their raw OS error code, an `Int`.
-/

namespace Filedesc

/-- Raw file descriptors are C ints; we model `c_int` as `Int`. -/
abbrev RawFd := Int

/-- The `libc::EINVAL` error code. -/
def EINVAL : Int := 22

/-- The `libc::EBADF` error code, returned for operations on closed descriptors. -/
def EBADF : Int := 9

/-- The `libc::F_DUPFD` fcntl command. -/
def F_DUPFD : Int := 0

/-- The `libc::F_GETFD` fcntl command. -/
def F_GETFD : Int := 1

/-- The `libc::F_SETFD` fcntl command. -/
def F_SETFD : Int := 2

/-- The `libc::F_DUPFD_CLOEXEC` fcntl command (Linux value). -/
def F_DUPFD_CLOEXEC : Int := 1030

/-- The `libc::FD_CLOEXEC` flag bit. -/
def FD_CLOEXEC : Int := 1

/-- One performed syscall, as recorded in the trace of the OS model. -/
inductive Syscall where
  | fcntl (fd cmd arg ret : Int)
  | close (fd : Int)
deriving DecidableEq, Repr

/-- The kernel state visible to the crate through the syscalls it consumes
(spec section 6).  `fds` is the table of open descriptors with their
close-on-exec flag.  `supportsCloexec` says whether the kernel implements
`F_DUPFD_CLOEXEC`; when it does not, that command fails with `EINVAL`.
The `fail*` knobs inject a failure with the paired error code into the
corresponding syscall, so claims about error propagation quantify over
every OS failure the spec allows.  `errno` is the per-process error cell
read by `std::io::Error::last_os_error`.  `trace` records the performed
syscalls, most recent first. -/
structure Os where
  fds : List (Int × Bool)
  supportsCloexec : Bool
  failDup : Bool := false
  dupErr : Int := 0
  failSetFd : Bool := false
  setFdErr : Int := 0
  failCloexecDup : Bool := false
  cloexecDupErr : Int := 0
  errno : Int := 0
  trace : List Syscall := []
deriving DecidableEq, Repr

/-- Whether descriptor `fd` is currently open. -/
def isOpen (os : Os) (fd : Int) : Bool :=
  os.fds.any fun p => p.1 == fd

/-- The close-on-exec flag of descriptor `fd`, when it is open. -/
def getFlag (os : Os) (fd : Int) : Option Bool :=
  (os.fds.find? fun p => p.1 == fd).map Prod.snd

/-- An upper bound on the open descriptors, used to allocate fresh ones. -/
def maxFd (os : Os) : Int :=
  os.fds.foldr (fun p m => max p.1 m) 0

/-- A descriptor not currently open, allocated by the duplication syscalls.
POSIX returns the lowest free descriptor at or above the argument; for the
properties verified here only freshness matters, so the model returns one
above the maximum open descriptor. -/
def freshFd (os : Os) : Int :=
  maxFd os + 1

/-- Update the close-on-exec flag of descriptor `fd` in a descriptor table. -/
def setFlag : List (Int × Bool) → Int → Bool → List (Int × Bool)
  | [], _, _ => []
  | p :: rest, fd, b =>
    if p.1 = fd then (p.1, b) :: setFlag rest fd b else p :: setFlag rest fd b

/-- Behaviour of the `fcntl` syscall, without the trace bookkeeping.
Returns the C return value and the successor state.  Commands on a closed
descriptor fail with `EBADF`; `F_DUPFD_CLOEXEC` fails with `EINVAL` when
the kernel does not support it, exactly the distinction spec section 6
calls load-bearing. -/
def fcntlCore (os : Os) (fd cmd arg : Int) : Int × Os :=
  if ¬ isOpen os fd then
    (-1, { os with errno := EBADF })
  else if cmd = F_DUPFD_CLOEXEC then
    if ¬ os.supportsCloexec then
      (-1, { os with errno := EINVAL })
    else if os.failCloexecDup then
      (-1, { os with errno := os.cloexecDupErr })
    else
      (freshFd os, { os with fds := (freshFd os, true) :: os.fds })
  else if cmd = F_DUPFD then
    if os.failDup then
      (-1, { os with errno := os.dupErr })
    else
      (freshFd os, { os with fds := (freshFd os, false) :: os.fds })
  else if cmd = F_SETFD then
    if os.failSetFd then
      (-1, { os with errno := os.setFdErr })
    else
      (0, { os with fds := setFlag os.fds fd (decide (arg.land FD_CLOEXEC ≠ 0)) })
  else if cmd = F_GETFD then
    (if getFlag os fd = some true then FD_CLOEXEC else 0, os)
  else
    (-1, { os with errno := EINVAL })

/-- The `fcntl` syscall: `fcntlCore` plus recording the call in the trace. -/
def fcntl (os : Os) (fd cmd arg : Int) : Int × Os :=
  let r := fcntlCore os fd cmd arg
  (r.1, { r.2 with trace := Syscall.fcntl fd cmd arg r.1 :: r.2.trace })

/-- The `close` syscall: removes the descriptor from the open table.  The
crate ignores its result (spec section 6), so the model returns no value. -/
def close (os : Os) (fd : Int) : Os :=
  { os with
    fds := os.fds.filter fun p => p.1 != fd
    trace := Syscall.close fd :: os.trace }

/-- Translation of `check_ret` (lib.rs lines 197-203): a return value of -1
is a failure surfacing `last_os_error`, anything else is returned in `Ok`. -/
def check_ret (ret : Int) (os : Os) : Except Int Int :=
  if ret = -1 then Except.error os.errno else Except.ok ret

/-- Translation of the `FileDesc` struct (lib.rs lines 48-50). -/
structure FileDesc where
  fd : RawFd
deriving DecidableEq, Repr

/-- The mutable process-wide state of the library: the value of the
`TRY_DUPFD_CLOEXEC` atomic static (lib.rs line 41). -/
structure LibState where
  try_dupfd_cloexec : Bool
deriving DecidableEq, Repr

/-- Initial value of the `TRY_DUPFD_CLOEXEC` static:
`AtomicBool::new(false)` (lib.rs line 41). -/
def TRY_DUPFD_CLOEXEC_INIT : Bool := false

/-- Translation of `FileDesc::from_raw_fd` (lib.rs lines 71-73): wraps the
value and performs no syscall, so the embedding does not take an `Os`. -/
def FileDesc.from_raw_fd (fd : RawFd) : FileDesc :=
  { fd := fd }

/-- Translation of `FileDesc::new` (lib.rs lines 57-60), applied to the raw
descriptor obtained from the `IntoRawFd` argument: it only wraps it. -/
def FileDesc.new (fd : RawFd) : FileDesc :=
  { fd := fd }

/-- Translation of `FileDesc::as_raw_fd` (lib.rs lines 115-117). -/
def FileDesc.as_raw_fd (h : FileDesc) : RawFd :=
  h.fd

/-- Translation of `Drop for FileDesc` (lib.rs lines 159-167): close the
descriptor when it is nonnegative, ignoring the result. -/
def FileDesc.drop (h : FileDesc) (os : Os) : Os :=
  if h.fd ≥ 0 then close os h.fd else os

/-- A Rust local owning a `FileDesc`, together with whether its drop glue
is still armed.  `mem::forget` is embedded as disarming the glue. -/
structure Owned where
  val : FileDesc
  armed : Bool
deriving DecidableEq, Repr

/-- Translation of `FileDesc::into_raw_fd` (lib.rs lines 123-127): read the
descriptor, then `mem::forget(self)`, embedded as disarming the drop glue
of the consumed local. -/
def FileDesc.into_raw_fd (o : Owned) : RawFd × Owned :=
  (o.val.fd, { o with armed := false })

/-- End of the scope of a local owning a `FileDesc`: Rust runs the drop
glue unless the value was forgotten. -/
def scopeEnd (o : Owned) (os : Os) : Os :=
  if o.armed then o.val.drop os else os

/-- Translation of `FileDesc::set_close_on_exec` (lib.rs lines 141-148). -/
def FileDesc.set_close_on_exec (h : FileDesc) (close_on_exec : Bool) (os : Os) :
    Except Int Unit × Os :=
  let arg := if close_on_exec then FD_CLOEXEC else 0
  let r := fcntl os h.fd F_SETFD arg
  match check_ret r.1 r.2 with
  | Except.error e => (Except.error e, r.2)
  | Except.ok _ => (Except.ok (), r.2)

/-- Translation of `FileDesc::get_close_on_exec` (lib.rs lines 151-156). -/
def FileDesc.get_close_on_exec (h : FileDesc) (os : Os) : Except Int Bool × Os :=
  let r := fcntl os h.fd F_GETFD 0
  match check_ret r.1 r.2 with
  | Except.error e => (Except.error e, r.2)
  | Except.ok ret => (Except.ok (decide (ret.land FD_CLOEXEC ≠ 0)), r.2)

/-- Translation of the fallback tail of `FileDesc::duplicate_raw_fd`
(lib.rs lines 104-108): plain `F_DUPFD`, then set close-on-exec
non-atomically.  When `set_close_on_exec` fails, the `?` operator returns
the error and the local `fd` goes out of scope armed, so its drop glue
closes the fresh descriptor. -/
def FileDesc.dup_fallback (fd : RawFd) (st : LibState) (os : Os) :
    Except Int FileDesc × LibState × Os :=
  let r1 := fcntl os fd F_DUPFD 0
  match check_ret r1.1 r1.2 with
  | Except.error e => (Except.error e, st, r1.2)
  | Except.ok nf =>
    let h := FileDesc.from_raw_fd nf
    let r2 := h.set_close_on_exec true r1.2
    match r2.1 with
    | Except.error e => (Except.error e, st, h.drop r2.2)
    | Except.ok _ => (Except.ok h, st, r2.2)

/-- Translation of `FileDesc::duplicate_raw_fd` (lib.rs lines 92-109).
When the `TRY_DUPFD_CLOEXEC` flag is set, try `F_DUPFD_CLOEXEC` first: on
success wrap the result; on failure with `EINVAL` store `false` into the
flag and fall through to the fallback; on any other failure return the
error.  When the flag is clear, go straight to the fallback. -/
def FileDesc.duplicate_raw_fd (fd : RawFd) (st : LibState) (os : Os) :
    Except Int FileDesc × LibState × Os :=
  if st.try_dupfd_cloexec then
    let r := fcntl os fd F_DUPFD_CLOEXEC 0
    match check_ret r.1 r.2 with
    | Except.error e =>
      if e = EINVAL then
        FileDesc.dup_fallback fd { st with try_dupfd_cloexec := false } r.2
      else
        (Except.error e, st, r.2)
    | Except.ok x => (Except.ok (FileDesc.from_raw_fd x), st, r.2)
  else
    FileDesc.dup_fallback fd st os

/-- Translation of `FileDesc::duplicate` (lib.rs lines 133-135). -/
def FileDesc.duplicate (h : FileDesc) (st : LibState) (os : Os) :
    Except Int FileDesc × LibState × Os :=
  FileDesc.duplicate_raw_fd h.as_raw_fd st os

/-- Translation of `FileDesc::duplicate_from` (lib.rs lines 79-81), applied
to the raw descriptor obtained from the `AsRawFd` argument. -/
def FileDesc.duplicate_from (fd : RawFd) (st : LibState) (os : Os) :
    Except Int FileDesc × LibState × Os :=
  FileDesc.duplicate_raw_fd fd st os

namespace Unix

/-- Initial value of the `TRY_DUPFD_CLOEXEC` static in the historical
revision: `AtomicBool::new(false)` (unix.rs line 8). -/
def TRY_DUPFD_CLOEXEC_INIT : Bool := false

/-- Translation of `check_ret` from the historical revision
(unix.rs lines 177-183). -/
def check_ret (ret : Int) (os : Os) : Except Int Int :=
  if ret = -1 then Except.error os.errno else Except.ok ret

/-- Translation of `FileDesc::from_raw_fd` from the historical revision
(unix.rs lines 38-40).  The struct itself (unix.rs lines 15-17) is
identical to the one in lib.rs, so the embedding reuses `FileDesc`. -/
def from_raw_fd (fd : RawFd) : FileDesc :=
  { fd := fd }

/-- Translation of `FileDesc::set_close_on_exec` from the historical
revision (unix.rs lines 121-128). -/
def set_close_on_exec (h : FileDesc) (close_on_exec : Bool) (os : Os) :
    Except Int Unit × Os :=
  let arg := if close_on_exec then FD_CLOEXEC else 0
  let r := fcntl os h.fd F_SETFD arg
  match check_ret r.1 r.2 with
  | Except.error e => (Except.error e, r.2)
  | Except.ok _ => (Except.ok (), r.2)

/-- Translation of `Drop for FileDesc` from the historical revision
(unix.rs lines 139-147). -/
def drop (h : FileDesc) (os : Os) : Os :=
  if h.fd ≥ 0 then close os h.fd else os

/-- Translation of the fallback tail of `FileDesc::duplicate_raw_fd` from
the historical revision (unix.rs lines 80-84). -/
def dup_fallback (fd : RawFd) (st : LibState) (os : Os) :
    Except Int FileDesc × LibState × Os :=
  let r1 := fcntl os fd F_DUPFD 0
  match check_ret r1.1 r1.2 with
  | Except.error e => (Except.error e, st, r1.2)
  | Except.ok nf =>
    let h := from_raw_fd nf
    let r2 := set_close_on_exec h true r1.2
    match r2.1 with
    | Except.error e => (Except.error e, st, drop h r2.2)
    | Except.ok _ => (Except.ok h, st, r2.2)

/-- Translation of `FileDesc::duplicate_raw_fd` from the historical
revision (unix.rs lines 68-85). -/
def duplicate_raw_fd (fd : RawFd) (st : LibState) (os : Os) :
    Except Int FileDesc × LibState × Os :=
  if st.try_dupfd_cloexec then
    let r := fcntl os fd F_DUPFD_CLOEXEC 0
    match check_ret r.1 r.2 with
    | Except.error e =>
      if e = EINVAL then
        dup_fallback fd { st with try_dupfd_cloexec := false } r.2
      else
        (Except.error e, st, r.2)
    | Except.ok x => (Except.ok (from_raw_fd x), st, r.2)
  else
    dup_fallback fd st os

end Unix

/-- Number of `F_DUPFD_CLOEXEC` attempts recorded in a trace. -/
def atomicAttempts (t : List Syscall) : Nat :=
  t.countP fun c =>
    match c with
    | Syscall.fcntl _ cmd _ _ => cmd == F_DUPFD_CLOEXEC
    | _ => false

/-- Number of `close` calls on descriptor `fd` recorded in a trace. -/
def closeCalls (t : List Syscall) (fd : Int) : Nat :=
  t.countP fun c =>
    match c with
    | Syscall.close f => f == fd
    | _ => false

/-- A concrete kernel state: descriptor 2 open, atomic duplication supported. -/
def os0 : Os := { fds := [(2, false)], supportsCloexec := true }

/-- A concrete kernel state lacking the atomic primitive. -/
def osNoAtomic : Os := { fds := [(2, false)], supportsCloexec := false }

/-- A concrete kernel state where plain duplication fails (injected EMFILE). -/
def osDupFails : Os :=
  { fds := [(2, false)], supportsCloexec := true, failDup := true, dupErr := 24 }

/-- A concrete kernel state where the `F_SETFD` call fails (injected EACCES). -/
def osSetFdFails : Os :=
  { fds := [(2, false)], supportsCloexec := true, failSetFd := true, setFdErr := 13 }

/-- A concrete kernel state where `F_DUPFD_CLOEXEC` fails with an injected
error other than `EINVAL`. -/
def osCloexecDupFails : Os :=
  { fds := [(2, false)], supportsCloexec := true, failCloexecDup := true,
    cloexecDupErr := 24 }

lemma le_foldr_max (p : Int × Bool) :
    ∀ l : List (Int × Bool), p ∈ l → p.1 ≤ l.foldr (fun q m => max q.1 m) 0
  | [], hp => absurd hp (List.not_mem_nil p)
  | q :: rest, hp => by
    rcases List.mem_cons.mp hp with h | h
    · subst h; exact le_max_left _ _
    · exact le_trans (le_foldr_max p rest h) (le_max_right _ _)

lemma foldr_max_nonneg :
    ∀ l : List (Int × Bool), 0 ≤ l.foldr (fun q m => max q.1 m) 0
  | [] => le_refl 0
  | _ :: rest => le_trans (foldr_max_nonneg rest) (le_max_right _ _)

lemma maxFd_nonneg (os : Os) : 0 ≤ maxFd os :=
  foldr_max_nonneg os.fds

lemma freshFd_pos (os : Os) : 0 < freshFd os :=
  lt_of_le_of_lt (maxFd_nonneg os) (lt_add_one _)

lemma lt_freshFd_of_isOpen (os : Os) (fd : Int) (h : isOpen os fd = true) :
    fd < freshFd os := by
  rcases List.any_eq_true.mp h with ⟨p, hp, he⟩
  have : p.1 = fd := by simpa using he
  subst this
  exact lt_of_le_of_lt (le_foldr_max p os.fds hp) (lt_add_one _)

lemma isOpen_freshFd (os : Os) : isOpen os (freshFd os) = false := by
  cases h : isOpen os (freshFd os)
  · rfl
  · exact absurd (lt_freshFd_of_isOpen os (freshFd os) h) (lt_irrefl _)

lemma setFlag_of_not_open (fd : Int) (b : Bool) :
    ∀ l : List (Int × Bool), l.any (fun p => p.1 == fd) = false → setFlag l fd b = l
  | [], _ => rfl
  | p :: rest, h => by
    have hh := List.any_cons (l := rest) ▸ h
    have h1 : (p.1 == fd) = false := by
      cases he : p.1 == fd
      · rfl
      · rw [he] at hh; simp at hh
    have h2 : rest.any (fun q => q.1 == fd) = false := by
      cases he : rest.any fun q => q.1 == fd
      · rfl
      · rw [he] at hh; simp at hh
    have hne : ¬ p.1 = fd := by simpa using h1
    simp only [setFlag, if_neg hne, setFlag_of_not_open fd b rest h2]

lemma isOpen_close_self (os : Os) (fd : Int) :
    isOpen (close os fd) fd = false := by
  simp only [isOpen, close]
  rw [List.any_eq_false]
  intro p hp
  have := (List.mem_filter.mp hp).2
  simpa using this

lemma isOpen_close_other (os : Os) (fd g : Int) (h : g ≠ fd) :
    isOpen (close os fd) g = isOpen os g := by
  simp only [isOpen, close]
  induction os.fds with
  | nil => rfl
  | cons p rest ih =>
    by_cases hp : p.1 = fd
    · have : (p.1 != fd) = false := by simpa using hp
      simp only [List.filter_cons, this, Bool.false_eq_true, if_false, ih,
        List.any_cons]
      have : (p.1 == g) = false := by
        subst hp
        simpa using fun he => h he.symm
      simp [this]
    · have : (p.1 != fd) = true := by simpa using hp
      simp [List.filter_cons, this, List.any_cons, ih]

lemma fcntl_not_open (os : Os) (fd cmd arg : Int) (h : isOpen os fd = false) :
    fcntl os fd cmd arg =
      (-1, { os with errno := EBADF,
                     trace := Syscall.fcntl fd cmd arg (-1) :: os.trace }) := by
  simp [fcntl, fcntlCore, h]

lemma fcntl_dupfd (os : Os) (fd : Int) (hopen : isOpen os fd = true) :
    fcntl os fd F_DUPFD 0 =
      if os.failDup then
        (-1, { os with errno := os.dupErr,
                       trace := Syscall.fcntl fd F_DUPFD 0 (-1) :: os.trace })
      else
        (freshFd os,
         { os with fds := (freshFd os, false) :: os.fds,
                   trace := Syscall.fcntl fd F_DUPFD 0 (freshFd os) :: os.trace }) := by
  by_cases hf : os.failDup <;>
    simp [fcntl, fcntlCore, hopen, hf, F_DUPFD, F_DUPFD_CLOEXEC]

lemma fcntl_dupfd_cloexec (os : Os) (fd : Int) (hopen : isOpen os fd = true) :
    fcntl os fd F_DUPFD_CLOEXEC 0 =
      if os.supportsCloexec then
        if os.failCloexecDup then
          (-1, { os with errno := os.cloexecDupErr,
                         trace := Syscall.fcntl fd F_DUPFD_CLOEXEC 0 (-1) :: os.trace })
        else
          (freshFd os,
           { os with fds := (freshFd os, true) :: os.fds,
                     trace := Syscall.fcntl fd F_DUPFD_CLOEXEC 0 (freshFd os) :: os.trace })
      else
        (-1, { os with errno := EINVAL,
                       trace := Syscall.fcntl fd F_DUPFD_CLOEXEC 0 (-1) :: os.trace }) := by
  by_cases hs : os.supportsCloexec <;> by_cases hf : os.failCloexecDup <;>
    simp [fcntl, fcntlCore, hopen, hs, hf]

lemma fcntl_setfd (os : Os) (fd arg : Int) (hopen : isOpen os fd = true) :
    fcntl os fd F_SETFD arg =
      if os.failSetFd then
        (-1, { os with errno := os.setFdErr,
                       trace := Syscall.fcntl fd F_SETFD arg (-1) :: os.trace })
      else
        (0, { os with fds := setFlag os.fds fd (decide (arg.land FD_CLOEXEC ≠ 0)),
                      trace := Syscall.fcntl fd F_SETFD arg 0 :: os.trace }) := by
  by_cases hf : os.failSetFd <;>
    simp [fcntl, fcntlCore, hopen, hf, F_SETFD, F_DUPFD, F_DUPFD_CLOEXEC]

lemma set_cloexec_true_spec (h : FileDesc) (os : Os) (hopen : isOpen os h.fd = true) :
    h.set_close_on_exec true os =
      if os.failSetFd then
        (Except.error os.setFdErr,
         { os with errno := os.setFdErr,
                   trace := Syscall.fcntl h.fd F_SETFD FD_CLOEXEC (-1) :: os.trace })
      else
        (Except.ok (),
         { os with fds := setFlag os.fds h.fd true,
                   trace := Syscall.fcntl h.fd F_SETFD FD_CLOEXEC 0 :: os.trace }) := by
  have harg : decide (Int.land FD_CLOEXEC FD_CLOEXEC ≠ 0) = true := by decide
  by_cases hf : os.failSetFd <;>
    simp [FileDesc.set_close_on_exec, fcntl_setfd os h.fd FD_CLOEXEC hopen, hf,
      check_ret, harg]

lemma dup_fallback_spec (fd : RawFd) (st : LibState) (os : Os)
    (hopen : isOpen os fd = true) :
    FileDesc.dup_fallback fd st os =
      if os.failDup then
        (Except.error os.dupErr, st,
         { os with errno := os.dupErr,
                   trace := Syscall.fcntl fd F_DUPFD 0 (-1) :: os.trace })
      else if os.failSetFd then
        (Except.error os.setFdErr, st,
         close
           { os with fds := (freshFd os, false) :: os.fds,
                     errno := os.setFdErr,
                     trace := Syscall.fcntl (freshFd os) F_SETFD FD_CLOEXEC (-1) ::
                       Syscall.fcntl fd F_DUPFD 0 (freshFd os) :: os.trace }
           (freshFd os))
      else
        (Except.ok { fd := freshFd os }, st,
         { os with fds := (freshFd os, true) :: os.fds,
                   trace := Syscall.fcntl (freshFd os) F_SETFD FD_CLOEXEC 0 ::
                     Syscall.fcntl fd F_DUPFD 0 (freshFd os) :: os.trace }) := by
  have hnf := freshFd_pos os
  have hne : ¬ freshFd os = -1 := by omega
  by_cases hd : os.failDup
  · simp [FileDesc.dup_fallback, fcntl_dupfd os fd hopen, hd, check_ret]
  · rw [FileDesc.dup_fallback]
    rw [fcntl_dupfd os fd hopen, if_neg hd]
    simp only [check_ret, hne, if_false, if_neg hd]
    have hopen1 :
        isOpen
          { os with fds := (freshFd os, false) :: os.fds,
                    trace := Syscall.fcntl fd F_DUPFD 0 (freshFd os) :: os.trace }
          (FileDesc.from_raw_fd (freshFd os)).fd = true := by
      simp [isOpen, FileDesc.from_raw_fd]
    rw [set_cloexec_true_spec _ _ hopen1]
    by_cases hsf : os.failSetFd
    · simp only [hsf, if_true, FileDesc.from_raw_fd, FileDesc.drop]
      rw [if_pos (by omega : (freshFd os : Int) ≥ 0)]
    · simp only [hsf, if_false, FileDesc.from_raw_fd]
      have hsetFlag :
          setFlag ((freshFd os, false) :: os.fds) (freshFd os) true =
            (freshFd os, true) :: os.fds := by
        rw [setFlag]
        rw [if_pos rfl, setFlag_of_not_open _ _ _ (isOpen_freshFd os)]
      simp [hsetFlag]

lemma check_ret_err (ret e : Int) (os : Os)
    (h : check_ret ret os = Except.error e) : ret = -1 ∧ e = os.errno := by
  rw [check_ret] at h
  by_cases hr : ret = -1
  · rw [if_pos hr] at h
    exact ⟨hr, (Except.error.injEq _ _ ▸ h).symm⟩
  · rw [if_neg hr] at h
    exact absurd h (by simp)

lemma check_ret_ok (ret x : Int) (os : Os)
    (h : check_ret ret os = Except.ok x) : ret = x ∧ ¬ ret = -1 := by
  rw [check_ret] at h
  by_cases hr : ret = -1
  · rw [if_pos hr] at h
    exact absurd h (by simp)
  · rw [if_neg hr] at h
    exact ⟨Except.ok.injEq _ _ ▸ h, hr⟩

lemma fcntlCore_trace (os : Os) (fd cmd arg : Int) :
    (fcntlCore os fd cmd arg).2.trace = os.trace := by
  rw [fcntlCore]
  repeat' split
  all_goals rfl

lemma close_errno (os : Os) (fd : Int) : (close os fd).errno = os.errno := rfl

lemma drop_errno (h : FileDesc) (os : Os) : (h.drop os).errno = os.errno := by
  rw [FileDesc.drop]
  split
  · rfl
  · rfl

lemma set_cloexec_err (h : FileDesc) (b : Bool) (os : Os) (e : Int)
    (herr : (h.set_close_on_exec b os).1 = Except.error e) :
    (fcntl os h.fd F_SETFD (if b then FD_CLOEXEC else 0)).1 = -1 ∧
    e = (fcntl os h.fd F_SETFD (if b then FD_CLOEXEC else 0)).2.errno ∧
    (h.set_close_on_exec b os).2 =
      (fcntl os h.fd F_SETFD (if b then FD_CLOEXEC else 0)).2 := by
  rw [FileDesc.set_close_on_exec] at herr ⊢
  split at herr
  case _ e' heq =>
    obtain ⟨h1, h2⟩ := check_ret_err _ _ _ heq
    have : e' = e := by simpa using herr
    subst this
    exact ⟨h1, h2, rfl⟩
  case _ heq =>
    exact absurd herr (by simp)

lemma get_cloexec_err (h : FileDesc) (os : Os) (e : Int)
    (herr : (h.get_close_on_exec os).1 = Except.error e) :
    (fcntl os h.fd F_GETFD 0).1 = -1 ∧
    e = (fcntl os h.fd F_GETFD 0).2.errno := by
  rw [FileDesc.get_close_on_exec] at herr
  split at herr
  case _ e' heq =>
    obtain ⟨h1, h2⟩ := check_ret_err _ _ _ heq
    have : e' = e := by simpa using herr
    subst this
    exact ⟨h1, h2⟩
  case _ heq =>
    exact absurd herr (by simp)

lemma dup_fallback_st (fd : RawFd) (st : LibState) (os : Os) :
    (FileDesc.dup_fallback fd st os).2.1 = st := by
  rw [FileDesc.dup_fallback]
  split
  · rfl
  · dsimp only
    split <;> rfl

lemma atomicAttempts_fcntl (os : Os) (fd cmd arg : Int)
    (h : ¬ cmd = F_DUPFD_CLOEXEC) :
    atomicAttempts (fcntl os fd cmd arg).2.trace = atomicAttempts os.trace := by
  simp [fcntl, atomicAttempts, List.countP_cons, fcntlCore_trace, h]

lemma atomicAttempts_close (os : Os) (fd : Int) :
    atomicAttempts (close os fd).trace = atomicAttempts os.trace := by
  simp [close, atomicAttempts, List.countP_cons]

lemma atomicAttempts_drop (h : FileDesc) (os : Os) :
    atomicAttempts (h.drop os).trace = atomicAttempts os.trace := by
  rw [FileDesc.drop]
  split
  · exact atomicAttempts_close os h.fd
  · rfl

lemma set_cloexec_atomicAttempts (h : FileDesc) (b : Bool) (os : Os) :
    atomicAttempts (h.set_close_on_exec b os).2.trace = atomicAttempts os.trace := by
  rw [FileDesc.set_close_on_exec]
  split <;> exact atomicAttempts_fcntl os h.fd F_SETFD _ (by decide)

lemma dup_fallback_atomicAttempts (fd : RawFd) (st : LibState) (os : Os) :
    atomicAttempts (FileDesc.dup_fallback fd st os).2.2.trace =
      atomicAttempts os.trace := by
  rw [FileDesc.dup_fallback]
  split
  · exact atomicAttempts_fcntl os fd F_DUPFD 0 (by decide)
  case _ nf heq =>
    dsimp only
    split
    case _ e heq2 =>
      calc atomicAttempts ((FileDesc.from_raw_fd nf).drop
              ((FileDesc.from_raw_fd nf).set_close_on_exec true
                (fcntl os fd F_DUPFD 0).2).2).trace
          = atomicAttempts ((FileDesc.from_raw_fd nf).set_close_on_exec true
              (fcntl os fd F_DUPFD 0).2).2.trace := atomicAttempts_drop _ _
        _ = atomicAttempts (fcntl os fd F_DUPFD 0).2.trace :=
            set_cloexec_atomicAttempts _ _ _
        _ = atomicAttempts os.trace := atomicAttempts_fcntl os fd F_DUPFD 0 (by decide)
    case _ heq2 =>
      calc atomicAttempts ((FileDesc.from_raw_fd nf).set_close_on_exec true
              (fcntl os fd F_DUPFD 0).2).2.trace
          = atomicAttempts (fcntl os fd F_DUPFD 0).2.trace :=
            set_cloexec_atomicAttempts _ _ _
        _ = atomicAttempts os.trace := atomicAttempts_fcntl os fd F_DUPFD 0 (by decide)

lemma dup_fallback_err (fd : RawFd) (st : LibState) (os : Os) (e : Int)
    (st' : LibState) (os' : Os)
    (hres : FileDesc.dup_fallback fd st os = (Except.error e, st', os')) :
    e = os'.errno := by
  rw [FileDesc.dup_fallback] at hres
  split at hres
  case _ e1 heq =>
    obtain ⟨_, h2⟩ := check_ret_err _ _ _ heq
    have he : Except.error e1 = Except.error e := congrArg Prod.fst hres
    have hos : (fcntl os fd F_DUPFD 0).2 = os' := congrArg (fun p => p.2.2) hres
    have he' : e1 = e := by simpa using he
    subst he'
    subst hos
    exact h2
  case _ nf heq =>
    dsimp only at hres
    split at hres
    case _ e2 heq2 =>
      have he : Except.error e2 = Except.error e := congrArg Prod.fst hres
      have hos : (FileDesc.from_raw_fd nf).drop
          ((FileDesc.from_raw_fd nf).set_close_on_exec true
            (fcntl os fd F_DUPFD 0).2).2 = os' := congrArg (fun p => p.2.2) hres
      obtain ⟨_, h2, h3⟩ := set_cloexec_err _ _ _ _ heq2
      have he' : e2 = e := by simpa using he
      subst he'
      subst hos
      rw [drop_errno, h3]
      exact h2
    case _ heq2 =>
      exact absurd hres (by simp)

lemma freshCons_conclusions (os os' : Os) (fd : RawFd)
    (hopen : isOpen os fd = true)
    (hfds : os'.fds = (freshFd os, true) :: os.fds) :
    freshFd os ≠ fd ∧ getFlag os' (freshFd os) = some true ∧
    isOpen os' fd = true ∧ getFlag os' fd = getFlag os fd := by
  have hlt := lt_freshFd_of_isOpen os fd hopen
  have hne : freshFd os ≠ fd := by omega
  have hbeq : (freshFd os == fd) = false := by simpa using hne
  refine ⟨hne, ?_, ?_, ?_⟩
  · simp [getFlag, hfds]
  · simp only [isOpen, hfds, List.any_cons, hbeq, Bool.false_or]
    simpa [isOpen] using hopen
  · simp [getFlag, hfds, List.find?_cons, hbeq]

lemma dup_fallback_ok (fd : RawFd) (st : LibState) (os : Os) (h : FileDesc)
    (st' : LibState) (os' : Os) (hopen : isOpen os fd = true)
    (hres : FileDesc.dup_fallback fd st os = (Except.ok h, st', os')) :
    h.fd ≠ fd ∧ getFlag os' h.fd = some true ∧ isOpen os' fd = true ∧
    getFlag os' fd = getFlag os fd := by
  rw [dup_fallback_spec fd st os hopen] at hres
  by_cases hd : os.failDup
  · rw [if_pos hd] at hres
    exact absurd (congrArg Prod.fst hres) (by simp)
  · rw [if_neg hd] at hres
    by_cases hsf : os.failSetFd
    · rw [if_pos hsf] at hres
      exact absurd (congrArg Prod.fst hres) (by simp)
    · rw [if_neg hsf] at hres
      have hh : ({ fd := freshFd os } : FileDesc) = h := by
        simpa using congrArg Prod.fst hres
      have hos := congrArg (fun p : Except Int FileDesc × LibState × Os => p.2.2) hres
      dsimp only at hos
      subst hh
      subst hos
      exact freshCons_conclusions os _ fd hopen rfl

lemma duplicate_raw_fd_err (fd : RawFd) (st : LibState) (os : Os) (e : Int)
    (st' : LibState) (os' : Os)
    (hres : FileDesc.duplicate_raw_fd fd st os = (Except.error e, st', os')) :
    e = os'.errno := by
  rw [FileDesc.duplicate_raw_fd] at hres
  by_cases hst : st.try_dupfd_cloexec
  · rw [if_pos hst] at hres
    dsimp only at hres
    split at hres
    case _ e1 heq =>
      obtain ⟨h1, h2⟩ := check_ret_err _ _ _ heq
      by_cases he1 : e1 = EINVAL
      · rw [if_pos he1] at hres
        exact dup_fallback_err _ _ _ _ _ _ hres
      · rw [if_neg he1] at hres
        have he : Except.error e1 = Except.error e := congrArg Prod.fst hres
        have hos : (fcntl os fd F_DUPFD_CLOEXEC 0).2 = os' :=
          congrArg (fun p => p.2.2) hres
        have he' : e1 = e := by simpa using he
        subst he'
        subst hos
        exact h2
    case _ x heq =>
      exact absurd (congrArg Prod.fst hres) (by simp)
  · rw [if_neg hst] at hres
    exact dup_fallback_err _ _ _ _ _ _ hres

/-- Claim C1, refuted by the code; this theorem evaluates the code at the
failing input.  With the `TRY_DUPFD_CLOEXEC` flag at its initial value, on
a kernel that supports the atomic primitive and with descriptor 2 open,
the first duplication call of the process performs no `F_DUPFD_CLOEXEC`
attempt at all: the static is initialised to `false` (lib.rs line 41), so
the atomic path is skipped and the call runs only the two fallback
syscalls `F_DUPFD` and `F_SETFD`.  The claim states the flag starts in
the assume-supported state and the atomic syscall is tried before any
fallback; the crate doc (lib.rs lines 12-13) states the same, so the
initialiser contradicts the documented behaviour. -/
theorem claim1_first_call_skips_atomic_attempt :
    TRY_DUPFD_CLOEXEC_INIT = false ∧
    atomicAttempts
      (FileDesc.duplicate_raw_fd 2 { try_dupfd_cloexec := TRY_DUPFD_CLOEXEC_INIT }
        os0).2.2.trace = 0 ∧
    (FileDesc.duplicate_raw_fd 2 { try_dupfd_cloexec := TRY_DUPFD_CLOEXEC_INIT }
        os0).2.2.trace =
      [Syscall.fcntl 3 F_SETFD FD_CLOEXEC 0, Syscall.fcntl 2 F_DUPFD 0 3] := by
  decide

/-- Claim C2: when the `TRY_DUPFD_CLOEXEC` flag is set and the atomic
`F_DUPFD_CLOEXEC` attempt fails, the failure is classified exactly two
ways: an `EINVAL` failure is not surfaced to the caller, clears the flag
and falls through to the non-atomic fallback path, while any failure with
another error code is propagated immediately, with the flag intact and
the final state exactly the state after the one failed atomic call, so no
fallback syscall is attempted. -/
theorem claim2_atomic_failure_classification (fd : RawFd) (os : Os)
    (hfail : (fcntl os fd F_DUPFD_CLOEXEC 0).1 = -1) :
    ((fcntl os fd F_DUPFD_CLOEXEC 0).2.errno = EINVAL →
      FileDesc.duplicate_raw_fd fd { try_dupfd_cloexec := true } os =
        FileDesc.dup_fallback fd { try_dupfd_cloexec := false }
          (fcntl os fd F_DUPFD_CLOEXEC 0).2) ∧
    (∀ e, (fcntl os fd F_DUPFD_CLOEXEC 0).2.errno = e → e ≠ EINVAL →
      FileDesc.duplicate_raw_fd fd { try_dupfd_cloexec := true } os =
        (Except.error e, { try_dupfd_cloexec := true },
          (fcntl os fd F_DUPFD_CLOEXEC 0).2)) := by
  have hcheck : check_ret (fcntl os fd F_DUPFD_CLOEXEC 0).1
      (fcntl os fd F_DUPFD_CLOEXEC 0).2 =
      Except.error (fcntl os fd F_DUPFD_CLOEXEC 0).2.errno := by
    rw [check_ret, if_pos hfail]
  constructor
  · intro he
    rw [FileDesc.duplicate_raw_fd]
    split
    · dsimp only
      rw [hcheck, he]
      simp
    case isFalse hc => exact absurd rfl hc
  · intro e he hne
    subst he
    rw [FileDesc.duplicate_raw_fd]
    split
    · dsimp only
      rw [hcheck]
      simp [hne]
    case isFalse hc => exact absurd rfl hc

/-- Witness for claim C2 at concrete inputs: a kernel without the atomic
primitive (failure with EINVAL, falling through to the fallback with the
flag cleared), and a kernel failing the atomic call with EMFILE (error 24,
propagated immediately with the flag intact). -/
theorem claim2_witness :
    (FileDesc.duplicate_raw_fd 2 { try_dupfd_cloexec := true } osNoAtomic =
      FileDesc.dup_fallback 2 { try_dupfd_cloexec := false }
        (fcntl osNoAtomic 2 F_DUPFD_CLOEXEC 0).2) ∧
    (FileDesc.duplicate_raw_fd 2 { try_dupfd_cloexec := true } osCloexecDupFails =
      (Except.error 24, { try_dupfd_cloexec := true },
        (fcntl osCloexecDupFails 2 F_DUPFD_CLOEXEC 0).2)) :=
  ⟨(claim2_atomic_failure_classification 2 osNoAtomic (by decide)).1 (by decide),
   (claim2_atomic_failure_classification 2 osCloexecDupFails (by decide)).2 24
     (by decide) (by decide)⟩

/-- Claim C3: in the fallback path, a failure of the plain `F_DUPFD`
duplication is propagated with no new descriptor created (the open table
is unchanged), and a failure of the subsequent `F_SETFD` call is
propagated while the freshly duplicated descriptor is closed by the drop
glue of the wrapper: it is no longer open afterwards and exactly one
`close` syscall on it was performed, so no descriptor leaks on either
failure branch and no handle is produced. -/
theorem claim3_fallback_failure_no_leak (fd : RawFd) (st : LibState) (os : Os)
    (hopen : isOpen os fd = true) :
    (os.failDup = true →
      (FileDesc.dup_fallback fd st os).1 = Except.error os.dupErr ∧
      (FileDesc.dup_fallback fd st os).2.2.fds = os.fds) ∧
    (os.failDup = false → os.failSetFd = true →
      (FileDesc.dup_fallback fd st os).1 = Except.error os.setFdErr ∧
      isOpen (FileDesc.dup_fallback fd st os).2.2 (freshFd os) = false ∧
      closeCalls (FileDesc.dup_fallback fd st os).2.2.trace (freshFd os) =
        closeCalls os.trace (freshFd os) + 1) := by
  rw [dup_fallback_spec fd st os hopen]
  constructor
  · intro hd
    rw [if_pos hd]
    exact ⟨rfl, rfl⟩
  · intro hd hsf
    rw [if_neg (by simp [hd]), if_pos hsf]
    refine ⟨rfl, isOpen_close_self _ _, ?_⟩
    simp [closeCalls, close, List.countP_cons]

/-- Witness for claim C3 at concrete inputs: a kernel failing plain
duplication with EMFILE, and a kernel failing the flag-set call with
EACCES (descriptor 3 is the fresh duplicate, closed again). -/
theorem claim3_witness :
    ((FileDesc.dup_fallback 2 { try_dupfd_cloexec := false } osDupFails).1 =
        Except.error osDupFails.dupErr ∧
      (FileDesc.dup_fallback 2 { try_dupfd_cloexec := false } osDupFails).2.2.fds =
        osDupFails.fds) ∧
    ((FileDesc.dup_fallback 2 { try_dupfd_cloexec := false } osSetFdFails).1 =
        Except.error osSetFdFails.setFdErr ∧
      isOpen (FileDesc.dup_fallback 2 { try_dupfd_cloexec := false } osSetFdFails).2.2
        (freshFd osSetFdFails) = false ∧
      closeCalls
        (FileDesc.dup_fallback 2 { try_dupfd_cloexec := false } osSetFdFails).2.2.trace
        (freshFd osSetFdFails) =
        closeCalls osSetFdFails.trace (freshFd osSetFdFails) + 1) :=
  ⟨(claim3_fallback_failure_no_leak 2 { try_dupfd_cloexec := false } osDupFails
      (by decide)).1 rfl,
   (claim3_fallback_failure_no_leak 2 { try_dupfd_cloexec := false } osSetFdFails
      (by decide)).2 rfl rfl⟩

/-- Claim C4: the capability flag never transitions back: a duplication
call ends with the flag set only if it already started set, and once the
flag is clear every duplication call leaves it clear and performs no
`F_DUPFD_CLOEXEC` attempt at all.  No other operation of the library
touches the flag: `duplicate_raw_fd` is the only function reading or
writing `LibState`. -/
theorem claim4_flag_clearing_is_absorbing (fd : RawFd) (st : LibState) (os : Os) :
    ((FileDesc.duplicate_raw_fd fd st os).2.1.try_dupfd_cloexec = true →
      st.try_dupfd_cloexec = true) ∧
    (st.try_dupfd_cloexec = false →
      (FileDesc.duplicate_raw_fd fd st os).2.1.try_dupfd_cloexec = false ∧
      atomicAttempts (FileDesc.duplicate_raw_fd fd st os).2.2.trace =
        atomicAttempts os.trace) := by
  by_cases hst : st.try_dupfd_cloexec
  · constructor
    · intro _
      exact hst
    · intro hf
      rw [hf] at hst
      exact absurd hst (by simp)
  · have hst' : st.try_dupfd_cloexec = false := by simpa using hst
    have hdup : FileDesc.duplicate_raw_fd fd st os = FileDesc.dup_fallback fd st os := by
      rw [FileDesc.duplicate_raw_fd, if_neg hst]
    rw [hdup]
    constructor
    · intro hcontr
      rw [dup_fallback_st, hst'] at hcontr
      exact absurd hcontr (by simp)
    · intro _
      refine ⟨?_, dup_fallback_atomicAttempts fd st os⟩
      rw [dup_fallback_st, hst']

/-- Witness for claim C4 at concrete inputs: a call starting with the flag
set (which ends with it set), and a call starting with the flag clear
(which ends with it clear and performs no atomic attempt). -/
theorem claim4_witness :
    (({ try_dupfd_cloexec := true } : LibState).try_dupfd_cloexec = true) ∧
    ((FileDesc.duplicate_raw_fd 2 { try_dupfd_cloexec := false } os0).2.1.try_dupfd_cloexec
        = false ∧
      atomicAttempts
        (FileDesc.duplicate_raw_fd 2 { try_dupfd_cloexec := false } os0).2.2.trace =
        atomicAttempts os0.trace) :=
  ⟨(claim4_flag_clearing_is_absorbing 2 { try_dupfd_cloexec := true } os0).1 (by decide),
   (claim4_flag_clearing_is_absorbing 2 { try_dupfd_cloexec := false } os0).2 rfl⟩

/-- Claim C5: for every open source descriptor and every flag state, a
successful duplication returns a handle on a descriptor different from
the source, whose close-on-exec flag reads true in the resulting kernel
state, whichever internal path produced it; the source descriptor is
still open and its own flag is unchanged. -/
theorem claim5_duplicate_success (fd : RawFd) (st : LibState) (os : Os)
    (h : FileDesc) (st' : LibState) (os' : Os)
    (hopen : isOpen os fd = true)
    (hres : FileDesc.duplicate_raw_fd fd st os = (Except.ok h, st', os')) :
    h.fd ≠ fd ∧ getFlag os' h.fd = some true ∧ isOpen os' fd = true ∧
    getFlag os' fd = getFlag os fd := by
  rw [FileDesc.duplicate_raw_fd] at hres
  by_cases hst : st.try_dupfd_cloexec
  · rw [if_pos hst] at hres
    dsimp only at hres
    split at hres
    case _ e1 heq =>
      rw [fcntl_dupfd_cloexec os fd hopen] at heq hres
      by_cases hs : os.supportsCloexec
      · rw [if_pos hs] at heq hres
        by_cases hf : os.failCloexecDup
        · rw [if_pos hf] at heq hres
          by_cases hE : e1 = EINVAL
          · rw [if_pos hE] at hres
            dsimp only at hres
            obtain ⟨c1, c2, c3, c4⟩ :=
              dup_fallback_ok _ _ _ _ _ _ (by exact hopen) hres
            exact ⟨c1, c2, c3, c4⟩
          · rw [if_neg hE] at hres
            exact absurd (congrArg Prod.fst hres) (by simp)
        · rw [if_neg hf] at heq hres
          obtain ⟨hm1, -⟩ := check_ret_err _ _ _ heq
          have hfp := freshFd_pos os
          dsimp only at hm1
          omega
      · rw [if_neg hs] at heq hres
        have he1 : e1 = EINVAL := by
          simpa using (check_ret_err _ _ _ heq).2
        rw [if_pos he1] at hres
        dsimp only at hres
        obtain ⟨c1, c2, c3, c4⟩ :=
          dup_fallback_ok _ _ _ _ _ _ (by exact hopen) hres
        exact ⟨c1, c2, c3, c4⟩
    case _ x heq =>
      rw [fcntl_dupfd_cloexec os fd hopen] at heq hres
      by_cases hs : os.supportsCloexec
      · rw [if_pos hs] at heq hres
        by_cases hf : os.failCloexecDup
        · rw [if_pos hf] at heq
          obtain ⟨-, hne⟩ := check_ret_ok _ _ _ heq
          simp at hne
        · rw [if_neg hf] at heq hres
          have hx : freshFd os = x := by
            simpa using (check_ret_ok _ _ _ heq).1
          subst hx
          dsimp only at hres
          have hh : FileDesc.from_raw_fd (freshFd os) = h := by
            simpa using congrArg Prod.fst hres
          have hos := congrArg
            (fun p : Except Int FileDesc × LibState × Os => p.2.2) hres
          dsimp only at hos
          subst hh
          subst hos
          exact freshCons_conclusions os _ fd hopen rfl
      · rw [if_neg hs] at heq
        obtain ⟨-, hne⟩ := check_ret_ok _ _ _ heq
        simp at hne
  · rw [if_neg hst] at hres
    exact dup_fallback_ok _ _ _ _ _ _ hopen hres

/-- Witness for claim C5 at a concrete input: duplicating open descriptor
2 in the fallback path yields descriptor 3 with its close-on-exec flag
set, while 2 stays open with its flag unchanged. -/
theorem claim5_witness :
    ({ fd := 3 } : FileDesc).fd ≠ 2 ∧
    getFlag (FileDesc.duplicate_raw_fd 2 { try_dupfd_cloexec := false } os0).2.2
      ({ fd := 3 } : FileDesc).fd = some true ∧
    isOpen (FileDesc.duplicate_raw_fd 2 { try_dupfd_cloexec := false } os0).2.2 2 = true ∧
    getFlag (FileDesc.duplicate_raw_fd 2 { try_dupfd_cloexec := false } os0).2.2 2 =
      getFlag os0 2 :=
  claim5_duplicate_success 2 { try_dupfd_cloexec := false } os0 { fd := 3 }
    (FileDesc.duplicate_raw_fd 2 { try_dupfd_cloexec := false } os0).2.1
    (FileDesc.duplicate_raw_fd 2 { try_dupfd_cloexec := false } os0).2.2
    (by decide) (by rfl)

/-- Claim C6: releasing ownership disarms the automatic close:
`into_raw_fd` returns the descriptor value and `mem::forget` disarms the
drop glue of the wrapper, so the end of the scope of the consumed wrapper
leaves the kernel state completely unchanged: no close syscall runs and
the descriptor stays open. -/
theorem claim6_into_raw_fd_disarms (o : Owned) (os : Os) :
    (FileDesc.into_raw_fd o).1 = o.val.as_raw_fd ∧
    scopeEnd (FileDesc.into_raw_fd o).2 os = os :=
  ⟨rfl, rfl⟩

/-- Claim C7: wrapping a descriptor value and querying it returns exactly
that value, for both `from_raw_fd` and `new`, and releasing it with
`into_raw_fd` also returns exactly that value.  The wrapping functions
take no kernel state in this embedding because the source performs no
syscall when wrapping; in particular the close-on-exec flag of the
wrapped descriptor is whatever it was before. -/
theorem claim7_wrap_identity (d : RawFd) (os : Os) :
    (FileDesc.from_raw_fd d).as_raw_fd = d ∧
    (FileDesc.new d).as_raw_fd = d ∧
    (FileDesc.into_raw_fd { val := FileDesc.from_raw_fd d, armed := true }).1 = d ∧
    getFlag os (FileDesc.from_raw_fd d).as_raw_fd = getFlag os d :=
  ⟨rfl, rfl, rfl, rfl⟩

/-- Claim C8: a syscall result is treated as a failure exactly when the
return value is -1, in which case the last OS error is surfaced
unmodified: `check_ret` fails iff the return value is -1 and then carries
exactly the errno; `set_close_on_exec` and `get_close_on_exec` return an
error only when their one `fcntl` returned -1, and that error is exactly
the errno that call left; and any error returned by the duplication
protocol equals the errno of the final state, with the sole `EINVAL`
absorption in the atomic attempt (claim C2) as the one exception to
immediate propagation. -/
theorem claim8_error_passthrough (ret e : Int) (os : Os) (h : FileDesc) (b : Bool)
    (fd : RawFd) (st st' : LibState) (os' : Os) :
    (check_ret ret os = Except.error e ↔ ret = -1 ∧ e = os.errno) ∧
    ((h.set_close_on_exec b os).1 = Except.error e →
      (fcntl os h.fd F_SETFD (if b then FD_CLOEXEC else 0)).1 = -1 ∧
      e = (fcntl os h.fd F_SETFD (if b then FD_CLOEXEC else 0)).2.errno) ∧
    ((h.get_close_on_exec os).1 = Except.error e →
      (fcntl os h.fd F_GETFD 0).1 = -1 ∧
      e = (fcntl os h.fd F_GETFD 0).2.errno) ∧
    (FileDesc.duplicate_raw_fd fd st os = (Except.error e, st', os') →
      e = os'.errno) := by
  refine ⟨⟨fun hc => check_ret_err _ _ _ hc, ?_⟩, ?_, ?_, ?_⟩
  · rintro ⟨h1, h2⟩
    rw [check_ret, if_pos h1, h2]
  · intro hc
    obtain ⟨h1, h2, -⟩ := set_cloexec_err _ _ _ _ hc
    exact ⟨h1, h2⟩
  · exact get_cloexec_err _ _ _
  · exact duplicate_raw_fd_err _ _ _ _ _ _

/-- Witness for claim C8 at a concrete input: with the `F_SETFD` call
failing with error 13, the duplication protocol surfaces exactly 13,
which is the errno of the final state, and the failing `fcntl` returned
-1 with errno 13. -/
theorem claim8_witness :
    ((13 : Int) =
      (FileDesc.duplicate_raw_fd 2 { try_dupfd_cloexec := false } osSetFdFails).2.2.errno) ∧
    ((fcntl osSetFdFails (2 : Int) F_SETFD (if true then FD_CLOEXEC else 0)).1 = -1 ∧
      (13 : Int) =
        (fcntl osSetFdFails (2 : Int) F_SETFD (if true then FD_CLOEXEC else 0)).2.errno) :=
  ⟨(claim8_error_passthrough (-1) 13 osSetFdFails { fd := 2 } true 2
      { try_dupfd_cloexec := false }
      (FileDesc.duplicate_raw_fd 2 { try_dupfd_cloexec := false } osSetFdFails).2.1
      (FileDesc.duplicate_raw_fd 2 { try_dupfd_cloexec := false } osSetFdFails).2.2).2.2.2
      (by rfl),
   (claim8_error_passthrough (-1) 13 osSetFdFails { fd := 2 } true 2
      { try_dupfd_cloexec := false } { try_dupfd_cloexec := false } osSetFdFails).2.1
      (by rfl)⟩

/-- Claim C9: dropping a wrapper whose stored descriptor value is negative
performs no close syscall at all: the drop glue guards the close with a
nonnegativity test, so the kernel state, its trace included, is left
completely unchanged. -/
theorem claim9_drop_negative_no_syscall (d : Int) (os : Os) (hneg : d < 0) :
    FileDesc.drop { fd := d } os = os := by
  have hn : ¬ (({ fd := d } : FileDesc).fd ≥ 0) := not_le.mpr hneg
  rw [FileDesc.drop, if_neg hn]

/-- Witness for claim C9 at a concrete input: dropping a wrapper around
descriptor -1 leaves the kernel state unchanged. -/
theorem claim9_witness : FileDesc.drop { fd := -1 } os0 = os0 :=
  claim9_drop_negative_no_syscall (-1) os0 (by decide)

/-- Claim C10: the duplication protocol of the historical revision in
unix.rs is behaviourally identical to the one in lib.rs: for every input
descriptor, flag state and kernel state the two translations return the
same result, and the two `TRY_DUPFD_CLOEXEC` statics have the same
initial value. -/
theorem claim10_revisions_identical (fd : RawFd) (st : LibState) (os : Os) :
    Unix.duplicate_raw_fd fd st os = FileDesc.duplicate_raw_fd fd st os ∧
    Unix.TRY_DUPFD_CLOEXEC_INIT = TRY_DUPFD_CLOEXEC_INIT :=
  ⟨rfl, rfl⟩

end Filedesc
